import Mathlib

/-
Formal model of the form-ninja client-side validation library
(src/modules/validators.ts, src/services/value.ts, src/services/error.ts,
src/modules/form-ninja.ts), as a shallow embedding in Lean 4.

JavaScript runtime values that can flow through the library are modelled by
the inductive type `Value` (strings, numbers, booleans, checkbox-item arrays,
file lists, undefined).  JavaScript numbers are modelled as rationals plus a
NaN marker (`JSNum`); the only exception the library can raise on the
modelled paths is a TypeError (`JSErr`).  The DOM surface the library touches
is modelled by `FormState`: the list of form controls in document order, the
error-message paragraphs and the form-group wrappers.  The browser's RegExp
engine is an external collaborator and is passed in as a test function `rt`.
-/

namespace FormNinja

/-- JavaScript numbers, as far as the library exercises them: a rational
value or NaN (produced by parseInt / ToNumber on garbled input). -/
inductive JSNum where
  | nan
  | num (q : ℚ)
deriving DecidableEq, Repr

/-- One entry of the array built by getCheckboxValue: either the explicit
value of a checked option or the boolean true used when the option carries
no (truthy) value attribute. -/
inductive CheckboxItem where
  | val (s : String)
  | checkedTrue
deriving DecidableEq, Repr

/-- JavaScript values flowing through the library: field values, extracted
values, validator arguments. -/
inductive Value where
  | str (s : String)
  | num (q : ℚ)
  | boolean (b : Bool)
  | items (xs : List CheckboxItem)
  | files (fs : List String)
  | undef
deriving DecidableEq, Repr

/-- The single kind of exception the modelled code can raise (calling a
method such as .trim on a value that does not have it). -/
inductive JSErr where
  | typeError
deriving DecidableEq, Repr

/-- The structured result of a failing validator: a message plus the
validator-specific payload fields, absent fields being `none`. -/
structure ErrorDetail where
  message : String
  pattern : Option Value := none
  min : Option Value := none
  max : Option Value := none
  minLength : Option Value := none
  maxLength : Option Value := none
  value : Option Value := none
deriving DecidableEq, Repr

/-- Digit list to natural number, most significant first. -/
def digitsToNat (ds : List Char) : Nat :=
  ds.foldl (fun a c => a * 10 + (c.toNat - 48)) 0

/-- JavaScript parseInt on a string (radix 10): skip leading whitespace,
optional sign, then the maximal digit prefix; NaN if there is none. -/
def parseIntJS (s : String) : JSNum :=
  let cs := s.data.dropWhile (fun c => c.isWhitespace)
  let signAndRest : Bool × List Char :=
    match cs with
    | '-' :: t => (true, t)
    | '+' :: t => (false, t)
    | t => (false, t)
  let ds := signAndRest.2.takeWhile Char.isDigit
  if ds = [] then .nan
  else .num (if signAndRest.1 then -(digitsToNat ds : ℚ) else (digitsToNat ds : ℚ))

/-- The replace(/[^\d.-]+/g, "") step of Validators.#toNumber: keep only
digits, dots and minus signs. -/
def stripNonNumeric (s : String) : String :=
  ⟨s.data.filter (fun c => c.isDigit || c = '.' || c = '-')⟩

/-- JavaScript String.prototype.trim: strip leading and trailing
whitespace. -/
def trimJS (s : String) : String :=
  ⟨((s.data.dropWhile Char.isWhitespace).reverse.dropWhile Char.isWhitespace).reverse⟩

/-- Strict decimal-literal parse used by ToNumber on strings:
[sign] digits [. digits] [e [sign] digits], consuming the whole input. -/
def parseDecimal (cs : List Char) : Option ℚ :=
  let signAndRest : ℚ × List Char :=
    match cs with
    | '-' :: t => (-1, t)
    | '+' :: t => (1, t)
    | t => (1, t)
  let sign := signAndRest.1
  let cs1 := signAndRest.2
  let intPart := cs1.takeWhile Char.isDigit
  let cs2 := cs1.drop intPart.length
  let fracAndRest : List Char × List Char :=
    match cs2 with
    | '.' :: t => (t.takeWhile Char.isDigit, t.drop (t.takeWhile Char.isDigit).length)
    | t => ([], t)
  let fracPart := fracAndRest.1
  let cs3 := fracAndRest.2
  if intPart = [] ∧ fracPart = [] then none
  else
    let mant : ℚ := (digitsToNat intPart : ℚ) + (digitsToNat fracPart : ℚ) / (10 : ℚ) ^ fracPart.length
    match cs3 with
    | [] => some (sign * mant)
    | e :: t =>
      if e = 'e' ∨ e = 'E' then
        let esignAndRest : Int × List Char :=
          match t with
          | '-' :: u => (-1, u)
          | '+' :: u => (1, u)
          | u => (1, u)
        let eds := esignAndRest.2.takeWhile Char.isDigit
        if eds = [] ∨ esignAndRest.2.drop eds.length ≠ [] then none
        else some (sign * mant * (10 : ℚ) ^ (esignAndRest.1 * (digitsToNat eds : Int)))
      else none

/-- JavaScript ToNumber on a string: trimmed empty string is 0, otherwise a
full decimal literal, otherwise NaN. -/
def numberOfString (s : String) : JSNum :=
  let t := trimJS s
  if t = "" then .num 0
  else
    match parseDecimal t.data with
    | some q => .num q
    | none => .nan

/-- Rendering of a rational the way JavaScript prints the numbers the
library produces (the reachable ones are integers). -/
def ratToString (q : ℚ) : String :=
  if q.den = 1 then toString q.num else toString q

/-- JavaScript ToString on the modelled values (used by template strings and
by RegExp.test coercion). -/
def jsToString : Value → String
  | .str s => s
  | .num q => ratToString q
  | .boolean b => if b then "true" else "false"
  | .items xs => String.intercalate "," (xs.map (fun x =>
      match x with
      | .val s => s
      | .checkedTrue => "true"))
  | .files _ => "[object FileList]"
  | .undef => "undefined"

/-- JavaScript truthiness of the modelled values. -/
def truthyValue : Value → Bool
  | .str s => !(decide (s = ""))
  | .num q => !(decide (q = 0))
  | .boolean b => b
  | .items _ => true
  | .files _ => true
  | .undef => false

/-- JavaScript ToNumber on the modelled values (used by the relational
operators when one side is a number). -/
def toNumberJS : Value → JSNum
  | .str s => numberOfString s
  | .num q => .num q
  | .boolean b => .num (if b then 1 else 0)
  | .items xs => numberOfString (jsToString (.items xs))
  | .files _ => .nan
  | .undef => .nan

/-- The JavaScript comparison `a >= b` where a is a number (or NaN) and b an
arbitrary value: NaN on either side yields false. -/
def jsGEnum (a : JSNum) (b : Value) : Bool :=
  match a, toNumberJS b with
  | .num x, .num y => decide (y ≤ x)
  | _, _ => false

/-- The JavaScript comparison `a <= b` where a is a number (or NaN). -/
def jsLEnum (a : JSNum) (b : Value) : Bool :=
  match a, toNumberJS b with
  | .num x, .num y => decide (x ≤ y)
  | _, _ => false

/-- The .length property read by minLength/maxLength: strings, arrays and
file lists have a numeric length, other values give undefined (NaN after
ToNumber). -/
def lengthNum : Value → JSNum
  | .str s => .num s.length
  | .items xs => .num xs.length
  | .files fs => .num fs.length
  | _ => .nan

namespace Validators

/-- Validators.#toNumber from src/modules/validators.ts: strings are
stripped to [0-9.-] and fed to parseInt, numbers pass through, anything
else becomes 0. -/
def toNumber : Value → JSNum
  | .str s => parseIntJS (stripNonNumeric s)
  | .num q => .num q
  | _ => .num 0

/-- Validators.required: value.trim() is called unguarded, so any
non-string argument raises a TypeError; a string fails when its trim is
empty. -/
def required (value : Value) : Except JSErr (Option ErrorDetail) :=
  match value with
  | .str s =>
    if trimJS s ≠ "" then .ok none
    else .ok (some { message := "This field is required and cannot be left blank." })
  | _ => .error .typeError

/-- Validators.requiredTrue: fails when the value is falsy. -/
def requiredTrue (value : Value) : Option ErrorDetail :=
  if truthyValue value then none
  else some { message := "You must check this box to proceed." }

/-- Validators.pattern: the regex engine is the external test `rt` applied
to the coerced source and subject strings. -/
def pattern (rt : String → String → Bool) (value bound : Value) : Option ErrorDetail :=
  if rt (jsToString bound) (jsToString value) then none
  else some { message := "The input does not match the required format."
              pattern := some bound
              value := some value }

/-- Validators.min: NUMBER >= min with JavaScript coercions. -/
def min (value bound : Value) : Option ErrorDetail :=
  if jsGEnum (toNumber value) bound then none
  else some { message := "The value must be greater than or equal to " ++ jsToString bound ++ "."
              min := some bound
              value := some value }

/-- Validators.max: NUMBER <= max with JavaScript coercions. -/
def max (value bound : Value) : Option ErrorDetail :=
  if jsLEnum (toNumber value) bound then none
  else some { message := "The value must be less than or equal to " ++ jsToString bound ++ "."
              max := some bound
              value := some value }

/-- Validators.minLength: value.length >= minLength with JavaScript
coercions. -/
def minLength (value bound : Value) : Option ErrorDetail :=
  if jsGEnum (lengthNum value) bound then none
  else some { message := "The input must be at least " ++ jsToString bound ++ " characters long."
              minLength := some bound
              value := some value }

/-- Validators.maxLength: value.length <= maxLength with JavaScript
coercions. -/
def maxLength (value bound : Value) : Option ErrorDetail :=
  if jsLEnum (lengthNum value) bound then none
  else some { message := "The input must not exceed " ++ jsToString bound ++ " characters."
              maxLength := some bound
              value := some value }

end Validators

/-- Modelled from the spec: the list BUILT_IN_VALIDATORS is imported by
src/services/error.ts from src/constants/index.js, a file absent from the
sources; the specification and the README list exactly these built-in rule
names. -/
def BUILT_IN_VALIDATORS : List String :=
  ["required", "requiredTrue", "pattern", "min", "max", "minLength", "maxLength"]

/-- The Validators[name](value, attributeValue) dispatch performed by
generateError; the attribute value arriving from a dataset is a string. -/
def applyBuiltin (rt : String → String → Bool) (name : String) (value : Value)
    (attr : String) : Except JSErr (Option ErrorDetail) :=
  match name with
  | "required" => Validators.required value
  | "requiredTrue" => .ok (Validators.requiredTrue value)
  | "pattern" => .ok (Validators.pattern rt value (.str attr))
  | "min" => .ok (Validators.min value (.str attr))
  | "max" => .ok (Validators.max value (.str attr))
  | "minLength" => .ok (Validators.minLength value (.str attr))
  | "maxLength" => .ok (Validators.maxLength value (.str attr))
  | _ => .ok none

/-- A dataset attribute bag (camel-cased data-* attributes of one element),
in declaration order. -/
abbrev Dataset := List (String × String)

/-- Reading one key of a dataset (first occurrence wins, mirroring the
unique keys of a JavaScript object). -/
def datasetGet (d : Dataset) (k : String) : Option String :=
  (d.find? (fun x => decide (x.1 = k))).map (·.2)

/-- A caller-supplied custom validator: (value, attributeValue) to an
optional error. -/
abbrev CustomValidator := Value → String → Option ErrorDetail

/-- The custom-validator registry of a controller instance. -/
abbrev Validations := List (String × CustomValidator)

/-- The `name in validations` membership test and the `validations[name]`
read, as a first-match lookup. -/
def lookupValidation (v : Validations) (k : String) : Option CustomValidator :=
  (v.find? (fun x => decide (x.1 = k))).map (·.2)

/-- The custom-message override step of generateError: if the dataset holds
a truthy `<name>Message` attribute, replace the message field only. -/
def applyOverride (full : Dataset) (name : String) (e : ErrorDetail) : ErrorDetail :=
  match datasetGet full (name ++ "Message") with
  | some m => if m = "" then e else { e with message := m }
  | none => e

/-- The loop body of generateError over the remaining dataset entries; the
whole dataset `full` stays available for message-override lookups. -/
def generateErrorAux (rt : String → String → Bool) (full : Dataset) (v : Validations)
    (value : Value) : List (String × String) → Except JSErr (Option ErrorDetail)
  | [] => .ok none
  | (name, attr) :: rest =>
    if name ∈ BUILT_IN_VALIDATORS then
      match applyBuiltin rt name value attr with
      | .error e => .error e
      | .ok none => generateErrorAux rt full v value rest
      | .ok (some err) => .ok (some (applyOverride full name err))
    else
      match lookupValidation v name with
      | some f =>
        match f value attr with
        | none => generateErrorAux rt full v value rest
        | some err => .ok (some (applyOverride full name err))
      | none => generateErrorAux rt full v value rest

/-- generateError from src/services/error.ts: iterate the declared
attributes in order, run built-ins first and custom validators otherwise,
return the first error (with its message override) and stop. -/
def generateError (rt : String → String → Bool) (d : Dataset) (v : Validations)
    (value : Value) : Except JSErr (Option ErrorDetail) :=
  generateErrorAux rt d v value d

/-- The verdict of a single dataset entry, for stating properties of
generateError: built-in first, then custom, else skipped. -/
def evalRule (rt : String → String → Bool) (v : Validations) (value : Value)
    (q : String × String) : Except JSErr (Option ErrorDetail) :=
  if q.1 ∈ BUILT_IN_VALIDATORS then applyBuiltin rt q.1 value q.2
  else
    match lookupValidation v q.1 with
    | some f => .ok (f value q.2)
    | none => .ok none

/-- The type attribute of a form control, as dispatched on by
generateValue; text stands for every kind other than radio, checkbox and
file. -/
inductive ControlType where
  | radio
  | checkbox
  | file
  | text
deriving DecidableEq, Repr

/-- One form control element: its name attribute, type, checked state, live
value property, value attribute, selected files, native disabled state,
computed visibility, dataset bag and the rf-invalid class marker. -/
structure Field where
  type : ControlType
  name : Option String
  checked : Bool
  value : String
  valueAttr : Option String
  files : List String
  disabled : Bool
  visible : Bool
  dataset : Dataset
  cssInvalid : Bool
deriving DecidableEq, Repr

/-- An error-message paragraph: the value of its error-message attribute
and its innerHTML. -/
structure ErrorEl where
  key : String
  text : String
deriving DecidableEq, Repr

/-- A form-group wrapper: the value of its form-group attribute and its
rf-invalid class marker. -/
structure GroupEl where
  key : String
  cssInvalid : Bool
deriving DecidableEq, Repr

/-- The part of the DOM the library reads and mutates: the form's controls
in document order, its error paragraphs and its form-group wrappers. -/
structure FormState where
  inputs : List Field
  errorEls : List ErrorEl
  groupEls : List GroupEl
deriving DecidableEq, Repr

/-- Truthiness of an optional attribute string (getAttribute result). -/
def truthyOpt : Option String → Bool
  | some s => !(decide (s = ""))
  | none => false

/-- The data-control-name attribute of a control (dataset.controlName). -/
def attrCN (f : Field) : Option String :=
  datasetGet f.dataset "controlName"

/-- The truthy control name of a field: the data-control-name attribute
when present and non-empty. -/
def truthyControlName (f : Field) : Option String :=
  match attrCN f with
  | some s => if s = "" then none else some s
  | none => none

/-- querySelectorAll("[data-control-name]"): the field group, in document
order (attribute presence, the value may be empty). -/
def fieldGroup (form : FormState) : List Field :=
  form.inputs.filter (fun f => (attrCN f).isSome)

/-- Replace the first element satisfying p (querySelector followed by a
mutation). -/
def updateFirst (p : α → Bool) (u : α → α) : List α → List α
  | [] => []
  | x :: xs => if p x then u x :: xs else x :: updateFirst p u xs

/-- Writing one key of a dataset: overwrite the first occurrence in place,
or append the new key at the end of the declaration order. -/
def datasetSet (d : Dataset) (k v : String) : Dataset :=
  if (d.find? (fun x => decide (x.1 = k))).isSome then
    updateFirst (fun x => decide (x.1 = k)) (fun x => (x.1, v)) d
  else d ++ [(k, v)]

/-- getRadioValue: the value of the first checked input sharing the group
name, or the empty string. -/
def getRadioValue (form : FormState) (controlName : String) : Value :=
  match form.inputs.find? (fun f => decide (f.name = some controlName) && f.checked) with
  | some f => .str f.value
  | none => .str ""

/-- The checked inputs sharing a group name, in document order. -/
def checkedGroup (form : FormState) (controlName : String) : List Field :=
  form.inputs.filter (fun f => decide (f.name = some controlName) && f.checked)

/-- The mapping step of getCheckboxValue: explicit value when the value
attribute is truthy, boolean true otherwise. -/
def checkboxItemOf (f : Field) : CheckboxItem :=
  if truthyOpt f.valueAttr then .val f.value else .checkedTrue

/-- getCheckboxValue from src/services/value.ts, dead branch included:
false when nothing is checked, otherwise the mapped array (which is never
empty, so the trailing `: true` branch is unreachable). -/
def getCheckboxValue (form : FormState) (controlName : String) : Value :=
  let sel := checkedGroup form controlName
  if sel.length = 0 then .boolean false
  else
    let values := sel.map checkboxItemOf
    if values.length ≠ 0 then .items values else .boolean true

/-- The control-name predicate used by the attribute selectors. -/
def pCN (cn : String) (f : Field) : Bool :=
  decide (attrCN f = some cn)

/-- getFiles: the files of the first element carrying the given
data-control-name; reading .files of a missing element raises. -/
def getFiles (form : FormState) (controlName : String) : Except JSErr Value :=
  match form.inputs.find? (pCN controlName) with
  | some f => .ok (.files f.files)
  | none => .error .typeError

/-- generateValue from src/services/value.ts: undefined without a truthy
control name, then dispatch on the control type; the default branch falls
back from the live value to the staged dataset value to the empty
string. -/
def generateValue (form : FormState) (field : Field) : Except JSErr Value :=
  match truthyControlName field with
  | none => .ok .undef
  | some controlName =>
    match field.type with
    | .radio => .ok (getRadioValue form controlName)
    | .checkbox => .ok (getCheckboxValue form controlName)
    | .file => getFiles form controlName
    | .text =>
      .ok (.str (if field.value ≠ "" then field.value
        else match datasetGet field.dataset "value" with
          | some v => if v ≠ "" then v else ""
          | none => ""))

/-- addInvalidClass: mark the first matching form-group wrapper and the
first matching control. -/
def addInvalidClass (cn : String) (form : FormState) : FormState :=
  { form with
    groupEls := updateFirst (fun g => decide (g.key = cn)) (fun g => { g with cssInvalid := true }) form.groupEls
    inputs := updateFirst (pCN cn) (fun f => { f with cssInvalid := true }) form.inputs }

/-- removeInvalidClass: clear the marker on the first matching form-group
wrapper and the first matching control. -/
def removeInvalidClass (cn : String) (form : FormState) : FormState :=
  { form with
    groupEls := updateFirst (fun g => decide (g.key = cn)) (fun g => { g with cssInvalid := false }) form.groupEls
    inputs := updateFirst (pCN cn) (fun f => { f with cssInvalid := false }) form.inputs }

/-- showError: mark invalid, then write the message into the first
matching error paragraph (silently doing nothing when it is missing). -/
def showError (message cn : String) (form : FormState) : FormState :=
  let form1 := addInvalidClass cn form
  { form1 with
    errorEls := updateFirst (fun e => decide (e.key = cn)) (fun e => { e with text := message }) form1.errorEls }

/-- hideError: clear the invalid markers, then blank the first matching
error paragraph. -/
def hideError (cn : String) (form : FormState) : FormState :=
  let form1 := removeInvalidClass cn form
  { form1 with
    errorEls := updateFirst (fun e => decide (e.key = cn)) (fun e => { e with text := "" }) form1.errorEls }

/-- The error text currently surfaced for a control name (content of the
first matching error paragraph). -/
def surfacedError (form : FormState) (cn : String) : Option String :=
  (form.errorEls.find? (fun e => decide (e.key = cn))).map (·.text)

/-- Whether the control resolved by a control name carries the rf-invalid
marker. -/
def markedInvalid (form : FormState) (cn : String) : Bool :=
  match form.inputs.find? (pCN cn) with
  | some f => f.cssInvalid
  | none => false

/-- isValid: no field of the field group carries the rf-invalid class. -/
def isValid (form : FormState) : Bool :=
  (fieldGroup form).all (fun f => !f.cssInvalid)

/-- The controller state: the bound form plus the custom-validator
registry fixed at construction. -/
structure Ninja where
  form : FormState
  validations : Validations

/-- The construction configuration: an optional validate mapping. -/
structure FormNinjaConfig where
  validate : Option Validations

/-- The constructor/initialize pair of the FormNinja class: bind the form
and take the validations from the configuration (empty when absent). -/
def mkFormNinja (form : FormState) (config : Option FormNinjaConfig) : Ninja :=
  { form := form
    validations :=
      match config with
      | none => []
      | some c => c.validate.getD [] }

/-- getField: the first control carrying the given data-control-name. -/
def getField (n : Ninja) (controlName : String) : Option Field :=
  n.form.inputs.find? (pCN controlName)

/-- getValues with a control name: the extracted value of the resolved
field, or undefined when the name does not resolve. -/
def getValues (n : Ninja) (controlName : String) : Except JSErr Value :=
  match getField n controlName with
  | none => .ok .undef
  | some f => generateValue n.form f

/-- validateField from src/modules/form-ninja.ts: extract the value, then
skip (clearing errors) when the field is disabled, flagged disabled or
invisible and has a truthy control name; otherwise resolve the error and
show or hide it, skipping the presentation step for fields without a
truthy control name. -/
def validateField (rt : String → String → Bool) (n : Ninja) (f : Field) :
    Except JSErr Ninja :=
  match generateValue n.form f with
  | .error e => .error e
  | .ok value =>
    let hidden := f.disabled || decide (datasetGet f.dataset "disabled" = some "true") || !f.visible
    match truthyControlName f with
    | some cn =>
      if hidden then .ok { n with form := hideError cn n.form }
      else
        match generateError rt f.dataset n.validations value with
        | .error e => .error e
        | .ok (some err) => .ok { n with form := showError err.message cn n.form }
        | .ok none => .ok { n with form := hideError cn n.form }
    | none =>
      match generateError rt f.dataset n.validations value with
      | .error e => .error e
      | .ok _ => .ok n

/-- The forEach of validate over a snapshot of the field group, threading
the state; an exception aborts the iteration. -/
def validateList (rt : String → String → Bool) : List Field → Ninja → Except JSErr Ninja
  | [], n => .ok n
  | f :: fs, n =>
    match validateField rt n f with
    | .error e => .error e
    | .ok n2 => validateList rt fs n2

/-- validate: run validateField over every field of the field group in
document order. -/
def validate (rt : String → String → Bool) (n : Ninja) : Except JSErr Ninja :=
  validateList rt (fieldGroup n.form) n

/-- The mutation performed by resetField on a resolved element: clear the
live value and stage the empty string in the dataset. -/
def clearField (f : Field) : Field :=
  { f with value := "", dataset := datasetSet f.dataset "value" "" }

/-- resetField on the element at a given position: clear its value, then
hide its error when its control name is truthy. -/
def resetFieldAt (form : FormState) (i : Nat) : FormState :=
  match form.inputs.get? i with
  | none => form
  | some f =>
    let form1 := { form with inputs := form.inputs.set i (clearField f) }
    match truthyControlName f with
    | some cn => hideError cn form1
    | none => form1

/-- The argument of the public resetField: a control name or a direct
element reference (modelled by its position in the form). -/
inductive ControlRef where
  | byName (s : String)
  | byEl (i : Nat)

/-- resetField: resolve by name or take the element directly; no-op when
unresolved. -/
def resetField (n : Ninja) : ControlRef → Ninja
  | .byName s =>
    match n.form.inputs.findIdx? (pCN s) with
    | none => n
    | some i => { n with form := resetFieldAt n.form i }
  | .byEl i =>
    if i < n.form.inputs.length then { n with form := resetFieldAt n.form i } else n

/-- The positions of the field-group members (the elements reset()
iterates over). -/
def groupIdxs (form : FormState) : List Nat :=
  (List.range form.inputs.length).filter (fun i =>
    match form.inputs.get? i with
    | some f => (attrCN f).isSome
    | none => false)

/-- The forEach of reset over the snapshot of field positions. -/
def resetAux (form : FormState) : List Nat → FormState
  | [] => form
  | i :: is => resetAux (resetFieldAt form i) is

/-- reset: resetField on every member of the field group. -/
def reset (n : Ninja) : Ninja :=
  { n with form := resetAux n.form (groupIdxs n.form) }

/-- The options object of setValue. -/
structure SetValueConfig where
  shouldValidate : Bool

/-- The mutation performed by setValue on a resolved field. -/
def setFieldValue (f : Field) (v : String) : Field :=
  { f with value := v, dataset := datasetSet f.dataset "value" v }

/-- setValue: no-op when the name does not resolve; otherwise write the
value (live and staged) and validate the updated field when requested. -/
def setValue (rt : String → String → Bool) (n : Ninja) (name v : String)
    (cfg : SetValueConfig) : Except JSErr Ninja :=
  match n.form.inputs.findIdx? (pCN name) with
  | none => .ok n
  | some i =>
    match n.form.inputs.get? i with
    | none => .ok n
    | some f =>
      let f2 := setFieldValue f v
      let n2 := { n with form := { n.form with inputs := n.form.inputs.set i f2 } }
      if cfg.shouldValidate then validateField rt n2 f2 else .ok n2

/-- update: setValue for every entry of the map, same options for all. -/
def update (rt : String → String → Bool) (n : Ninja) :
    List (String × String) → SetValueConfig → Except JSErr Ninja
  | [], _ => .ok n
  | (k, v) :: rest, cfg =>
    match setValue rt n k v cfg with
    | .error e => .error e
    | .ok n2 => update rt n2 rest cfg

/-- trigger: a truthy control name validates that one field (no-op when
unresolved); a falsy one — null or the empty string — validates the whole
form. -/
def trigger (rt : String → String → Bool) (n : Ninja) :
    Option String → Except JSErr Ninja
  | some s =>
    if s = "" then validate rt n
    else
      match getField n s with
      | none => .ok n
      | some f => validateField rt n f
  | none => validate rt n

/-- A regex collaborator that rejects everything (never consulted on the
concrete runs below). -/
def rtFalse : String → String → Bool := fun _ _ => false

/-- A text control with every attribute at its quiet default, used as the
base of the concrete forms below. -/
def blankText : Field :=
  { type := .text, name := none, checked := false, value := "",
    valueAttr := none, files := [], disabled := false, visible := true,
    dataset := [], cssInvalid := false }

/-- One checked checkbox named a, carrying no value attribute. -/
def exFieldC3 : Field :=
  { blankText with
    type := .checkbox
    name := some "a"
    checked := true
    value := "on"
    dataset := [("controlName", "a")] }

/-- A form holding only that checkbox. -/
def exFormC3 : FormState :=
  { inputs := [exFieldC3], errorEls := [], groupEls := [] }

/-- Two checked checkboxes named g, each with an explicit value. -/
def exFieldC3b : Field :=
  { blankText with
    type := .checkbox
    name := some "g"
    checked := true
    value := "one"
    valueAttr := some "one"
    dataset := [("controlName", "g")] }

/-- The second checkbox of the g group. -/
def exFieldC3c : Field :=
  { blankText with
    type := .checkbox
    name := some "g"
    checked := true
    value := "two"
    valueAttr := some "two" }

/-- A form holding the two-checkbox g group. -/
def exFormC3b : FormState :=
  { inputs := [exFieldC3b, exFieldC3c], errorEls := [], groupEls := [] }

/-- A natively disabled required text field with a stale surfaced error. -/
def exFieldC5 : Field :=
  { blankText with
    disabled := true
    cssInvalid := true
    dataset := [("controlName", "a"), ("required", "")] }

/-- Its controller state. -/
def exN5 : Ninja :=
  { form := { inputs := [exFieldC5], errorEls := [{ key := "a", text := "old" }],
              groupEls := [] },
    validations := [] }

/-- A visible enabled field with a required rule but no control name. -/
def exFieldC6 : Field :=
  { blankText with dataset := [("required", "")] }

/-- Its controller state. -/
def exN6 : Ninja :=
  { form := { inputs := [exFieldC6], errorEls := [], groupEls := [] },
    validations := [] }

/-- A visible required-but-empty field named x. -/
def exFieldC8 : Field :=
  { blankText with dataset := [("controlName", "x"), ("required", "")] }

/-- Its controller state, with a pristine error paragraph. -/
def exN8 : Ninja :=
  { form := { inputs := [exFieldC8], errorEls := [{ key := "x", text := "" }],
              groupEls := [] },
    validations := [] }

/-- A dirty field named a: marked invalid, stale value and error text. -/
def exFieldC7 : Field :=
  { blankText with
    value := "stale"
    cssInvalid := true
    dataset := [("controlName", "a")] }

/-- The controller state for the reset scenario. -/
def exN7 : Ninja :=
  { form := { inputs := [exFieldC7],
              errorEls := [{ key := "a", text := "bad" }],
              groupEls := [{ key := "a", cssInvalid := true }] },
    validations := [] }

/-- Every control carrying the control name cn is fully cleared — empty
live value, staged empty dataset value, no rf-invalid marker — and the
error paragraph resolved by cn holds no text. -/
def FullyCleared (form : FormState) (cn : String) : Prop :=
  (∀ g ∈ form.inputs, attrCN g = some cn →
    g.value = "" ∧ datasetGet g.dataset "value" = some "" ∧ g.cssInvalid = false) ∧
  (∀ t, surfacedError form cn = some t → t = "")

/-- An unchecked checkbox group of one option named d, declaring the
required rule. -/
def exFieldC10 : Field :=
  { blankText with
    type := .checkbox
    name := some "d"
    dataset := [("controlName", "d"), ("required", "")] }

/-- Its controller state. -/
def exN10 : Ninja :=
  { form := { inputs := [exFieldC10], errorEls := [], groupEls := [] },
    validations := [] }

end FormNinja

namespace FormNinja

theorem updateFirst_map_eq (p : α → Bool) (u : α → α) (g : α → β)
    (hg : ∀ x, g (u x) = g x) : ∀ l : List α, (updateFirst p u l).map g = l.map g := by
  intro l
  induction l with
  | nil => rfl
  | cons x xs ih =>
    by_cases hx : p x
    · simp [updateFirst, hx, hg]
    · simp [updateFirst, hx, ih]

theorem updateFirst_length (p : α → Bool) (u : α → α) :
    ∀ l : List α, (updateFirst p u l).length = l.length := by
  intro l
  induction l with
  | nil => rfl
  | cons x xs ih =>
    by_cases hx : p x <;> simp [updateFirst, hx, ih]

theorem find?_updateFirst_same (p : α → Bool) (u : α → α)
    (hp : ∀ x, p (u x) = p x) :
    ∀ l : List α, (updateFirst p u l).find? p = (l.find? p).map u := by
  intro l
  induction l with
  | nil => rfl
  | cons x xs ih =>
    by_cases hx : p x
    · simp [updateFirst, hx, List.find?_cons, hp]
    · simp [updateFirst, hx, List.find?_cons, ih]

theorem find?_updateFirst_disjoint (p q : α → Bool) (u : α → α)
    (hq : ∀ x, q x = true → p x = false ∧ p (u x) = false) :
    ∀ l : List α, (updateFirst q u l).find? p = l.find? p := by
  intro l
  induction l with
  | nil => rfl
  | cons x xs ih =>
    by_cases hx : q x
    · obtain ⟨h1, h2⟩ := hq x hx
      simp [updateFirst, hx, List.find?_cons, h1, h2]
    · simp [updateFirst, hx, List.find?_cons, ih]

theorem mem_updateFirst (p : α → Bool) (u : α → α) :
    ∀ l : List α, ∀ x ∈ updateFirst p u l, x ∈ l ∨ ∃ y ∈ l, x = u y := by
  intro l
  induction l with
  | nil => intro x hx; cases hx
  | cons z xs ih =>
    intro x hx
    simp only [updateFirst] at hx
    by_cases hz : p z
    · rw [if_pos hz] at hx
      rcases List.mem_cons.mp hx with hx | hx
      · exact Or.inr ⟨z, List.mem_cons_self z xs, hx⟩
      · exact Or.inl (List.mem_cons_of_mem z hx)
    · rw [if_neg hz] at hx
      rcases List.mem_cons.mp hx with hx | hx
      · exact Or.inl (hx ▸ List.mem_cons_self z xs)
      · rcases ih x hx with h | ⟨y, hy, hxy⟩
        · exact Or.inl (List.mem_cons_of_mem z h)
        · exact Or.inr ⟨y, List.mem_cons_of_mem z hy, hxy⟩

theorem updateFirst_mem_of_count_le_one (p : α → Bool) (u : α → α)
    (hp : ∀ x, p (u x) = p x) :
    ∀ l : List α, l.countP p ≤ 1 →
      ∀ x ∈ updateFirst p u l, p x = true → ∃ y ∈ l, p y = true ∧ x = u y := by
  intro l
  induction l with
  | nil => intro _ x hx; cases hx
  | cons z xs ih =>
    intro hc x hx hpx
    simp only [updateFirst] at hx
    by_cases hz : p z
    · rw [if_pos hz] at hx
      rcases List.mem_cons.mp hx with hx | hx
      · exact ⟨z, List.mem_cons_self z xs, hz, hx⟩
      · exfalso
        have hcc := List.countP_cons_of_pos p xs hz
        have hc2 : xs.countP p = 0 := by omega
        have hforall := List.countP_eq_zero.mp hc2
        exact absurd hpx (by simpa using hforall x hx)
    · rw [if_neg hz] at hx
      rcases List.mem_cons.mp hx with hx | hx
      · subst hx; simp [hz] at hpx
      · have hcc := List.countP_cons_of_neg p xs hz
        have hc2 : xs.countP p ≤ 1 := by omega
        obtain ⟨y, hy, hpy, hxy⟩ := ih hc2 x hx hpx
        exact ⟨y, List.mem_cons_of_mem z hy, hpy, hxy⟩

theorem countP_two_indices {p : α → Bool} :
    ∀ (l : List α) (i j : Nat) (a b : α), i ≠ j → l.get? i = some a →
      l.get? j = some b → p a = true → p b = true → 2 ≤ l.countP p := by
  intro l
  induction l with
  | nil => intro i j a b _ hi; cases hi
  | cons z xs ih =>
    intro i j a b hij hi hj hpa hpb
    match i, j with
    | 0, 0 => exact absurd rfl hij
    | 0, j' + 1 =>
      have hz : z = a := by simpa using hi
      have hmem : b ∈ xs := List.get?_mem (by simpa using hj)
      have h1 : 1 ≤ xs.countP p := by
        have := List.countP_pos (p := p) (l := xs)
        exact this.mpr ⟨b, hmem, hpb⟩
      have := List.countP_cons_of_pos p xs (hz ▸ hpa)
      omega
    | i' + 1, 0 =>
      have hz : z = b := by simpa using hj
      have hmem : a ∈ xs := List.get?_mem (by simpa using hi)
      have h1 : 1 ≤ xs.countP p := by
        have := List.countP_pos (p := p) (l := xs)
        exact this.mpr ⟨a, hmem, hpa⟩
      have := List.countP_cons_of_pos p xs (hz ▸ hpb)
      omega
    | i' + 1, j' + 1 =>
      have h2 := ih i' j' a b (fun h => hij (by omega)) (by simpa using hi)
        (by simpa using hj) hpa hpb
      have := List.countP_cons p z xs
      omega

theorem find?_none_iff_findIdx?_none (p : α → Bool) :
    ∀ l : List α, l.find? p = none ↔ l.findIdx? p = none := by
  intro l
  constructor
  · intro h
    rw [List.findIdx?_eq_none_iff]
    intro x hx
    have := List.find?_eq_none.mp h x hx
    simpa using this
  · intro h
    rw [List.find?_eq_none]
    intro x hx
    have := List.findIdx?_eq_none_iff.mp h x hx
    simpa using this

theorem datasetGet_datasetSet_self (d : Dataset) (k v : String) :
    datasetGet (datasetSet d k v) k = some v := by
  unfold datasetSet
  by_cases hf : (d.find? (fun x => decide (x.1 = k))).isSome
  · rw [if_pos hf]
    unfold datasetGet
    rw [find?_updateFirst_same (fun (x : String × String) => decide (x.1 = k))
      (fun (x : String × String) => (x.1, v)) (fun x => rfl) d]
    obtain ⟨y, hy⟩ := Option.isSome_iff_exists.mp hf
    rw [hy]
    rfl
  · rw [if_neg hf]
    unfold datasetGet
    rw [List.find?_append]
    have hnone : d.find? (fun x => decide (x.1 = k)) = none :=
      Option.not_isSome_iff_eq_none.mp hf
    rw [hnone]
    simp

theorem datasetGet_datasetSet_ne (d : Dataset) (k v k' : String) (h : k' ≠ k) :
    datasetGet (datasetSet d k v) k' = datasetGet d k' := by
  unfold datasetSet
  by_cases hf : (d.find? (fun x => decide (x.1 = k))).isSome
  · rw [if_pos hf]
    unfold datasetGet
    rw [find?_updateFirst_disjoint (fun (x : String × String) => decide (x.1 = k'))
      (fun (x : String × String) => decide (x.1 = k))
      (fun (x : String × String) => (x.1, v)) ?_ d]
    intro x hx
    have hxk : x.1 = k := by simpa using hx
    constructor
    · simp [hxk, Ne.symm h]
    · simp [hxk, Ne.symm h]
  · rw [if_neg hf]
    unfold datasetGet
    rw [List.find?_append]
    cases hd : d.find? (fun x => decide (x.1 = k')) with
    | some y => simp
    | none => simp [Ne.symm h]

/-- C2: the code evaluated at the failing inputs. Validators.#toNumber maps
the garbled string abc to NaN (parseInt of the stripped empty string), not
to 0 as its own doc comment and the claim state, so min("abc",0) and
max("abc",0) both fail even though a zero coercion would let them pass,
while min("abc",1) fails as the claim's example says. -/
theorem minmax_garbled_coerces_to_nan :
    Validators.toNumber (Value.str "abc") = JSNum.nan ∧
    Validators.min (Value.str "abc") (Value.num 0) ≠ none ∧
    Validators.max (Value.str "abc") (Value.num 0) ≠ none ∧
    Validators.min (Value.str "abc") (Value.num 1) ≠ none := by
  refine ⟨rfl, ?_, ?_, ?_⟩ <;> decide

/-- C4: a custom validator registered under a built-in rule name is never
consulted — generateError behaves exactly as if the entry were absent from
the registry, whatever the dataset, value and remaining registry are. -/
theorem builtin_shadows_custom (rt : String → String → Bool) (d : Dataset)
    (v : Validations) (value : Value) (name : String) (f : CustomValidator)
    (h : name ∈ BUILT_IN_VALIDATORS) :
    generateError rt d ((name, f) :: v) value = generateError rt d v value := by
  unfold generateError
  suffices hs : ∀ L, generateErrorAux rt d ((name, f) :: v) value L =
      generateErrorAux rt d v value L from hs d
  intro L
  induction L with
  | nil => rfl
  | cons q rest ih =>
    obtain ⟨k, a⟩ := q
    by_cases hb : k ∈ BUILT_IN_VALIDATORS
    · simp only [generateErrorAux, if_pos hb]
      cases applyBuiltin rt k value a with
      | error e => rfl
      | ok o =>
        cases o with
        | none => exact ih
        | some err => rfl
    · have hk : ¬(k = name) := fun he => hb (he ▸ h)
      have hl : lookupValidation ((name, f) :: v) k = lookupValidation v k := by
        unfold lookupValidation
        rw [List.find?_cons_of_neg]
        simp only [decide_eq_true_eq]
        exact fun hc => hk hc.symm
      simp only [generateErrorAux, if_neg hb, hl]
      cases lookupValidation v k with
      | none => exact ih
      | some g =>
        show (match g value a with
          | none => generateErrorAux rt d ((name, f) :: v) value rest
          | some err => Except.ok (some (applyOverride d k err))) =
          (match g value a with
          | none => generateErrorAux rt d v value rest
          | some err => Except.ok (some (applyOverride d k err)))
        cases g value a with
        | none => exact ih
        | some err => rfl

/-- C4 witness: shadowing the built-in required rule with a custom
validator that would always fail changes nothing. -/
theorem builtin_shadows_custom_witness :
    generateError rtFalse [("required", "")]
      [("required", fun _ _ => some { message := "boom" })] (Value.str "") =
    generateError rtFalse [("required", "")] [] (Value.str "") :=
  builtin_shadows_custom rtFalse [("required", "")] [] (Value.str "") "required"
    (fun _ _ => some { message := "boom" }) (by decide)

/-- C10: Validators.required is total on strings (it always returns,
failing exactly on blank trims) but raises a TypeError on the boolean and
undefined values that checkbox extraction and absent extraction really
produce; in particular the unchecked required checkbox group d extracts the
boolean false and validateField raises on it. -/
theorem required_total_only_on_strings :
    (∀ s : String, ∃ o, Validators.required (Value.str s) = .ok o) ∧
    Validators.required (Value.boolean false) = .error .typeError ∧
    Validators.required Value.undef = .error .typeError ∧
    getCheckboxValue exN10.form "d" = Value.boolean false ∧
    validateField rtFalse exN10 exFieldC10 = .error .typeError := by
  refine ⟨?_, rfl, rfl, by decide, by rfl⟩
  intro s
  simp only [Validators.required]
  split
  · exact ⟨none, rfl⟩
  · exact ⟨_, rfl⟩

/-- C6 counterexample: a visible enabled field with a declared required
rule but no control name. Extraction does yield undefined, but
validateField does not short-circuit: it feeds the undefined value to the
required validator, which raises a TypeError. -/
theorem validateField_no_name_evaluates_rules_cex :
    generateValue exN6.form exFieldC6 = .ok Value.undef ∧
    validateField rtFalse exN6 exFieldC6 = .error .typeError := by
  exact ⟨rfl, rfl⟩

/-- C6 amended: for a field without a truthy control name, extraction
yields undefined and validateField still evaluates the declared rules on
that undefined value — propagating any exception — and only skips the
presentation step, leaving the state unchanged when rule evaluation
completes. -/
theorem validateField_no_control_name (rt : String → String → Bool) (n : Ninja)
    (f : Field) (h : truthyControlName f = none) :
    generateValue n.form f = .ok Value.undef ∧
    validateField rt n f =
      (generateError rt f.dataset n.validations Value.undef).map (fun _ => n) := by
  have hgv : generateValue n.form f = .ok Value.undef := by
    unfold generateValue; rw [h]
  refine ⟨hgv, ?_⟩
  unfold validateField
  rw [hgv]
  dsimp only
  rw [h]
  cases hge : generateError rt f.dataset n.validations Value.undef with
  | error e => rfl
  | ok o => rfl

/-- C6 witness: the amended statement at the concrete no-name field. -/
theorem validateField_no_control_name_witness :
    generateValue exN6.form exFieldC6 = .ok Value.undef ∧
    validateField rtFalse exN6 exFieldC6 =
      (generateError rtFalse exFieldC6.dataset exN6.validations Value.undef).map
        (fun _ => exN6) :=
  validateField_no_control_name rtFalse exN6 exFieldC6 (by decide)

/-- C3 counterexample: one checked checkbox with no value attribute — the
extracted value is the one-element array holding true, not the bare
boolean true the claim announces. -/
theorem checkbox_single_unvalued_cex :
    getCheckboxValue exFormC3 "a" = Value.items [CheckboxItem.checkedTrue] ∧
    getCheckboxValue exFormC3 "a" ≠ Value.boolean true := by
  exact ⟨by decide, by decide⟩

/-- C3 amended: checkbox extraction returns false when no option of the
group is checked, and otherwise always the array mapping each checked
option to its explicit value when its value attribute is truthy and to
boolean true otherwise (the bare-true branch of the source is dead). -/
theorem getCheckboxValue_characterization (form : FormState) (cn : String) (f : Field)
    (hcn : truthyControlName f = some cn) (hty : f.type = ControlType.checkbox) :
    generateValue form f = .ok (getCheckboxValue form cn) ∧
    (checkedGroup form cn = [] → getCheckboxValue form cn = Value.boolean false) ∧
    (checkedGroup form cn ≠ [] →
      getCheckboxValue form cn = Value.items ((checkedGroup form cn).map checkboxItemOf)) := by
  refine ⟨?_, ?_, ?_⟩
  · unfold generateValue
    rw [hcn, hty]
  · intro h
    unfold getCheckboxValue
    dsimp only
    rw [h]
    rfl
  · intro h
    unfold getCheckboxValue
    dsimp only
    have hlen : ¬((checkedGroup form cn).length = 0) := by
      intro hc
      exact h (List.length_eq_zero.mp hc)
    rw [if_neg hlen, if_pos]
    simpa using hlen

/-- C3 witness: the two-option checked group g extracts the array of both
explicit values. -/
theorem getCheckboxValue_characterization_witness :
    getCheckboxValue exFormC3b "g" =
      Value.items [CheckboxItem.val "one", CheckboxItem.val "two"] :=
  ((getCheckboxValue_characterization exFormC3b "g" exFieldC3b (by decide)
    (by decide)).2.2 (by decide)).trans (by decide)

/-- C8 counterexample: the empty string never resolves to a field of this
form, yet trigger("") is not a no-op — the falsy check routes it to
validate(), which surfaces the required error of field x and marks it
invalid. -/
theorem trigger_empty_name_not_noop_cex :
    getField exN8 "" = none ∧
    markedInvalid exN8.form "x" = false ∧
    (trigger rtFalse exN8 (some "")).map (fun m => markedInvalid m.form "x") =
      .ok true := by
  refine ⟨by decide, by decide, by rfl⟩

/-- C8 amended: for every non-empty name that does not resolve to a field,
getField is absent and setValue, resetField and trigger return the state
unchanged without throwing; the empty string is instead treated by trigger
as the falsy validate-everything sentinel. -/
theorem unresolved_name_noops (rt : String → String → Bool) (n : Ninja) (s v : String)
    (cfg : SetValueConfig) (hne : s ≠ "") (h : getField n s = none) :
    setValue rt n s v cfg = .ok n ∧
    resetField n (ControlRef.byName s) = n ∧
    trigger rt n (some s) = .ok n := by
  have hidx : n.form.inputs.findIdx? (pCN s) = none :=
    (find?_none_iff_findIdx?_none (pCN s) n.form.inputs).mp h
  refine ⟨?_, ?_, ?_⟩
  · unfold setValue
    rw [hidx]
  · simp only [resetField]
    rw [hidx]
  · simp only [trigger]
    rw [if_neg hne, h]

/-- C8 witness: the three no-ops at the unresolvable name zzz. -/
theorem unresolved_name_noops_witness :
    setValue rtFalse exN8 "zzz" "q" { shouldValidate := false } = .ok exN8 ∧
    resetField exN8 (ControlRef.byName "zzz") = exN8 ∧
    trigger rtFalse exN8 (some "zzz") = .ok exN8 :=
  unresolved_name_noops rtFalse exN8 "zzz" "q" { shouldValidate := false }
    (by decide) (by decide)

/-- C5: a disabled, attribute-disabled or invisible field with a (truthy)
control name makes validateField clear its error and marker via hideError
and return, whatever its declared rules conclude: the result is literally
the hideError state, the resolved control is unmarked and the surfaced
error text is blanked. -/
theorem validateField_disabled_or_hidden_clears (rt : String → String → Bool)
    (n : Ninja) (f : Field) (cn : String)
    (hmem : f ∈ n.form.inputs) (hcn : truthyControlName f = some cn)
    (hdis : f.disabled = true ∨ datasetGet f.dataset "disabled" = some "true" ∨
      f.visible = false) :
    validateField rt n f = .ok { n with form := hideError cn n.form } ∧
    markedInvalid (hideError cn n.form) cn = false ∧
    (∀ t, surfacedError (hideError cn n.form) cn = some t → t = "") := by
  have hattr : attrCN f = some cn := by
    unfold truthyControlName at hcn
    cases hg : attrCN f with
    | none => rw [hg] at hcn; cases hcn
    | some s =>
      rw [hg] at hcn
      dsimp only at hcn
      by_cases hs : s = ""
      · rw [if_pos hs] at hcn; cases hcn
      · rw [if_neg hs] at hcn
        exact hcn
  have hex : ∃ w, generateValue n.form f = .ok w := by
    unfold generateValue
    rw [hcn]
    dsimp only
    cases hty : f.type with
    | radio => exact ⟨_, rfl⟩
    | checkbox => exact ⟨_, rfl⟩
    | text => exact ⟨_, rfl⟩
    | file =>
      unfold getFiles
      cases hfind : n.form.inputs.find? (pCN cn) with
      | some g => exact ⟨_, rfl⟩
      | none =>
        exact absurd hattr (by simpa [pCN] using List.find?_eq_none.mp hfind f hmem)
  obtain ⟨w, hgv⟩ := hex
  have hhid : (f.disabled || decide (datasetGet f.dataset "disabled" = some "true") ||
      !f.visible) = true := by
    rcases hdis with h1 | h1 | h1 <;> simp [h1]
  refine ⟨?_, ?_, ?_⟩
  · unfold validateField
    rw [hgv]
    dsimp only
    rw [hcn]
    dsimp only
    simp only [hhid, if_true]
  · unfold markedInvalid hideError removeInvalidClass
    dsimp only
    rw [find?_updateFirst_same (pCN cn) (fun g => { g with cssInvalid := false })
      (fun g => rfl) n.form.inputs]
    cases n.form.inputs.find? (pCN cn) with
    | none => rfl
    | some g => rfl
  · intro t ht
    unfold surfacedError hideError removeInvalidClass at ht
    dsimp only at ht
    rw [find?_updateFirst_same (fun e => decide (e.key = cn))
      (fun e => { e with text := "" }) (fun e => rfl) n.form.errorEls] at ht
    cases hfind : n.form.errorEls.find? (fun e => decide (e.key = cn)) with
    | none => rw [hfind] at ht; cases ht
    | some e2 =>
      rw [hfind] at ht
      exact (Option.some.inj ht).symm

theorem validateField_validations (rt : String → String → Bool) (n : Ninja) (f : Field) :
    ∀ m, validateField rt n f = .ok m → m.validations = n.validations := by
  intro m h
  unfold validateField at h
  cases hgv : generateValue n.form f with
  | error e => rw [hgv] at h; cases h
  | ok w =>
    rw [hgv] at h
    dsimp only at h
    cases htc : truthyControlName f with
    | some cn =>
      rw [htc] at h
      dsimp only at h
      by_cases hh : (f.disabled || decide (datasetGet f.dataset "disabled" = some "true") ||
          !f.visible) = true
      · rw [if_pos hh] at h
        cases h; rfl
      · rw [if_neg hh] at h
        cases hge : generateError rt f.dataset n.validations w with
        | error e => rw [hge] at h; cases h
        | ok o =>
          rw [hge] at h
          cases o with
          | some err => dsimp only at h; cases h; rfl
          | none => dsimp only at h; cases h; rfl
    | none =>
      rw [htc] at h
      dsimp only at h
      cases hge : generateError rt f.dataset n.validations w with
      | error e => rw [hge] at h; cases h
      | ok o => rw [hge] at h; dsimp only at h; cases h; rfl

theorem validateList_validations (rt : String → String → Bool) :
    ∀ (l : List Field) (n m : Ninja), validateList rt l n = .ok m →
      m.validations = n.validations := by
  intro l
  induction l with
  | nil =>
    intro n m h
    simp only [validateList] at h
    cases h; rfl
  | cons f fs ih =>
    intro n m h
    simp only [validateList] at h
    cases hvf : validateField rt n f with
    | error e => rw [hvf] at h; cases h
    | ok n2 =>
      rw [hvf] at h
      dsimp only at h
      exact (ih n2 m h).trans (validateField_validations rt n f n2 hvf)

theorem setValue_validations (rt : String → String → Bool) (n : Ninja) (s v : String)
    (cfg : SetValueConfig) :
    ∀ m, setValue rt n s v cfg = .ok m → m.validations = n.validations := by
  intro m h
  unfold setValue at h
  cases hidx : n.form.inputs.findIdx? (pCN s) with
  | none => rw [hidx] at h; dsimp only at h; cases h; rfl
  | some i =>
    rw [hidx] at h
    dsimp only at h
    cases hget : n.form.inputs.get? i with
    | none => rw [hget] at h; dsimp only at h; cases h; rfl
    | some f =>
      rw [hget] at h
      dsimp only at h
      by_cases hc : cfg.shouldValidate = true
      · rw [if_pos hc] at h
        exact validateField_validations rt
          { n with form := { n.form with inputs := n.form.inputs.set i (setFieldValue f v) } }
          (setFieldValue f v) m h
      · rw [if_neg hc] at h
        cases h; rfl

theorem update_validations (rt : String → String → Bool) :
    ∀ (kvs : List (String × String)) (n m : Ninja) (cfg : SetValueConfig),
      update rt n kvs cfg = .ok m → m.validations = n.validations := by
  intro kvs
  induction kvs with
  | nil =>
    intro n m cfg h
    simp only [update] at h
    cases h; rfl
  | cons kv rest ih =>
    intro n m cfg h
    obtain ⟨k, v⟩ := kv
    simp only [update] at h
    cases hsv : setValue rt n k v cfg with
    | error e => rw [hsv] at h; cases h
    | ok n2 =>
      rw [hsv] at h
      dsimp only at h
      exact (ih n2 m cfg h).trans (setValue_validations rt n k v cfg n2 hsv)

theorem trigger_validations (rt : String → String → Bool) (n : Ninja)
    (name? : Option String) :
    ∀ m, trigger rt n name? = .ok m → m.validations = n.validations := by
  intro m h
  cases name? with
  | none =>
    simp only [trigger] at h
    unfold validate at h
    exact validateList_validations rt (fieldGroup n.form) n m h
  | some s =>
    simp only [trigger] at h
    by_cases hs : s = ""
    · rw [if_pos hs] at h
      unfold validate at h
      exact validateList_validations rt (fieldGroup n.form) n m h
    · rw [if_neg hs] at h
      cases hgf : getField n s with
      | none => rw [hgf] at h; dsimp only at h; cases h; rfl
      | some f =>
        rw [hgf] at h
        dsimp only at h
        exact validateField_validations rt n f m h

theorem resetField_validations (n : Ninja) (r : ControlRef) :
    (resetField n r).validations = n.validations := by
  cases r with
  | byName s =>
    simp only [resetField]
    cases n.form.inputs.findIdx? (pCN s) with
    | none => rfl
    | some i => rfl
  | byEl i =>
    simp only [resetField]
    by_cases hi : i < n.form.inputs.length
    · rw [if_pos hi]
    · rw [if_neg hi]

theorem map_validations_of_preserved {r : Except JSErr Ninja} {vv : Validations}
    (h : ∀ m, r = .ok m → m.validations = vv) :
    r.map Ninja.validations = r.map (fun _ => vv) := by
  cases hr : r with
  | error e => rfl
  | ok m => simp [Except.map, h m hr]

/-- C9: the validator registry is fixed at construction (empty mapping when
the configuration is absent) and no public operation — reset, resetField,
setValue, update, validateField, validate, trigger — ever produces a state
with a different registry; the read-only operations return no state at
all in this embedding. -/
theorem registry_immutable (rt : String → String → Bool) (form : FormState)
    (cfg : FormNinjaConfig) (n : Ninja) (s v : String) (c : SetValueConfig)
    (kvs : List (String × String)) (r : ControlRef) (name? : Option String)
    (f : Field) :
    (mkFormNinja form none).validations = [] ∧
    (mkFormNinja form (some cfg)).validations = cfg.validate.getD [] ∧
    (reset n).validations = n.validations ∧
    (resetField n r).validations = n.validations ∧
    (setValue rt n s v c).map Ninja.validations =
      (setValue rt n s v c).map (fun _ => n.validations) ∧
    (update rt n kvs c).map Ninja.validations =
      (update rt n kvs c).map (fun _ => n.validations) ∧
    (validateField rt n f).map Ninja.validations =
      (validateField rt n f).map (fun _ => n.validations) ∧
    (validate rt n).map Ninja.validations =
      (validate rt n).map (fun _ => n.validations) ∧
    (trigger rt n name?).map Ninja.validations =
      (trigger rt n name?).map (fun _ => n.validations) :=
  ⟨rfl, rfl, rfl, resetField_validations n r,
   map_validations_of_preserved (setValue_validations rt n s v c),
   map_validations_of_preserved (fun m h => update_validations rt kvs n m c h),
   map_validations_of_preserved (validateField_validations rt n f),
   map_validations_of_preserved (fun m h => validateList_validations rt (fieldGroup n.form) n m h),
   map_validations_of_preserved (trigger_validations rt n name?)⟩

/-- The loop of generateError returns the override-applied error of the
first failing entry of the iterated list, every earlier entry passing. -/
theorem generateErrorAux_first_fail (rt : String → String → Bool) (full : Dataset)
    (v : Validations) (value : Value) :
    ∀ (L : List (String × String)) (e : ErrorDetail),
      generateErrorAux rt full v value L = .ok (some e) →
      ∃ pre name attr post e0,
        L = pre ++ (name, attr) :: post ∧
        (∀ q ∈ pre, evalRule rt v value q = .ok none) ∧
        evalRule rt v value (name, attr) = .ok (some e0) ∧
        e = applyOverride full name e0 := by
  intro L
  induction L with
  | nil =>
    intro e h
    simp only [generateErrorAux] at h
    cases h
  | cons q rest ih =>
    intro e h
    obtain ⟨k, a⟩ := q
    simp only [generateErrorAux] at h
    by_cases hb : k ∈ BUILT_IN_VALIDATORS
    · rw [if_pos hb] at h
      cases hab : applyBuiltin rt k value a with
      | error e2 => rw [hab] at h; cases h
      | ok o =>
        rw [hab] at h
        cases o with
        | none =>
          dsimp only at h
          obtain ⟨pre, nm, at2, post, e0, hL, hpre, hrule, he⟩ := ih e h
          refine ⟨(k, a) :: pre, nm, at2, post, e0, by rw [hL]; rfl, ?_, hrule, he⟩
          intro q hq
          rcases List.mem_cons.mp hq with hq | hq
          · subst hq
            unfold evalRule
            rw [if_pos hb]
            exact hab
          · exact hpre q hq
        | some err =>
          dsimp only at h
          have he : e = applyOverride full k err := by
            injection h with h1
            injection h1 with h2
            exact h2.symm
          refine ⟨[], k, a, rest, err, rfl, ?_, ?_, he⟩
          · intro q hq
            cases hq
          · unfold evalRule
            rw [if_pos hb]
            exact hab
    · rw [if_neg hb] at h
      cases hlk : lookupValidation v k with
      | none =>
        rw [hlk] at h
        dsimp only at h
        obtain ⟨pre, nm, at2, post, e0, hL, hpre, hrule, he⟩ := ih e h
        refine ⟨(k, a) :: pre, nm, at2, post, e0, by rw [hL]; rfl, ?_, hrule, he⟩
        intro q hq
        rcases List.mem_cons.mp hq with hq | hq
        · subst hq
          unfold evalRule
          rw [if_neg hb, hlk]
        · exact hpre q hq
      | some g =>
        rw [hlk] at h
        dsimp only at h
        cases hga : g value a with
        | none =>
          rw [hga] at h
          dsimp only at h
          obtain ⟨pre, nm, at2, post, e0, hL, hpre, hrule, he⟩ := ih e h
          refine ⟨(k, a) :: pre, nm, at2, post, e0, by rw [hL]; rfl, ?_, hrule, he⟩
          intro q hq
          rcases List.mem_cons.mp hq with hq | hq
          · subst hq
            unfold evalRule
            rw [if_neg hb, hlk]
            dsimp only
            rw [hga]
          · exact hpre q hq
        | some err =>
          rw [hga] at h
          dsimp only at h
          have he : e = applyOverride full k err := by
            injection h with h1
            injection h1 with h2
            exact h2.symm
          refine ⟨[], k, a, rest, err, rfl, ?_, ?_, he⟩
          · intro q hq
            cases hq
          · unfold evalRule
            rw [if_neg hb, hlk]
            dsimp only
            rw [hga]

/-- C1: when generateError surfaces an error, the dataset splits into a
passing prefix, the first failing declared rule and an unevaluated
remainder; the surfaced ErrorDetail carries exactly the failing
validator's payload fields, with only the message replaced when a truthy
ruleNameMessage attribute is declared. -/
theorem generateError_first_failing_wins (rt : String → String → Bool) (d : Dataset)
    (v : Validations) (value : Value) (e : ErrorDetail)
    (h : generateError rt d v value = .ok (some e)) :
    ∃ pre name attr post e0,
      d = pre ++ (name, attr) :: post ∧
      (∀ q ∈ pre, evalRule rt v value q = .ok none) ∧
      evalRule rt v value (name, attr) = .ok (some e0) ∧
      e.pattern = e0.pattern ∧ e.min = e0.min ∧ e.max = e0.max ∧
      e.minLength = e0.minLength ∧ e.maxLength = e0.maxLength ∧ e.value = e0.value ∧
      e.message = (match datasetGet d (name ++ "Message") with
        | some m => if m = "" then e0.message else m
        | none => e0.message) := by
  obtain ⟨pre, name, attr, post, e0, hL, hpre, hrule, he⟩ :=
    generateErrorAux_first_fail rt d v value d e h
  subst he
  refine ⟨pre, name, attr, post, e0, hL, hpre, hrule, ?_, ?_, ?_, ?_, ?_, ?_, ?_⟩ <;>
    (unfold applyOverride
     cases datasetGet d (name ++ "Message") with
     | none => rfl
     | some m =>
       by_cases hm : m = ""
       · simp [hm]
       · simp [hm])

/-- C1 witness: on the bag declaring controlName then required, with the
empty-string value, the surfaced error is the required failure. -/
theorem generateError_first_failing_wins_witness :
    ∃ pre name attr post e0,
      ([("controlName", "x"), ("required", "")] : Dataset) = pre ++ (name, attr) :: post ∧
      (∀ q ∈ pre, evalRule rtFalse ([] : Validations) (Value.str "") q = .ok none) ∧
      evalRule rtFalse [] (Value.str "") (name, attr) = .ok (some e0) ∧
      ({ message := "This field is required and cannot be left blank." } : ErrorDetail).pattern = e0.pattern ∧
      ({ message := "This field is required and cannot be left blank." } : ErrorDetail).min = e0.min ∧
      ({ message := "This field is required and cannot be left blank." } : ErrorDetail).max = e0.max ∧
      ({ message := "This field is required and cannot be left blank." } : ErrorDetail).minLength = e0.minLength ∧
      ({ message := "This field is required and cannot be left blank." } : ErrorDetail).maxLength = e0.maxLength ∧
      ({ message := "This field is required and cannot be left blank." } : ErrorDetail).value = e0.value ∧
      ({ message := "This field is required and cannot be left blank." } : ErrorDetail).message =
        (match datasetGet [("controlName", "x"), ("required", "")] (name ++ "Message") with
          | some m => if m = "" then e0.message else m
          | none => e0.message) :=
  generateError_first_failing_wins rtFalse [("controlName", "x"), ("required", "")] []
    (Value.str "") { message := "This field is required and cannot be left blank." } (by rfl)

theorem set_get?_self : ∀ (l : List α) (i : Nat) (a : α), l.get? i = some a → l.set i a = l := by
  intro l
  induction l with
  | nil => intro i a h; cases h
  | cons x xs ih =>
    intro i a h
    cases i with
    | zero =>
      cases h
      rfl
    | succ j =>
      simp only [List.set]
      rw [ih j a (by simpa using h)]

theorem hideError_inputs (cn : String) (form : FormState) :
    (hideError cn form).inputs =
      updateFirst (pCN cn) (fun f => { f with cssInvalid := false }) form.inputs := rfl

theorem hideError_errorEls (cn : String) (form : FormState) :
    (hideError cn form).errorEls =
      updateFirst (fun e => decide (e.key = cn)) (fun e => { e with text := "" })
        form.errorEls := rfl

theorem clearField_attrCN (f : Field) : attrCN (clearField f) = attrCN f := by
  unfold attrCN clearField
  dsimp only
  exact datasetGet_datasetSet_ne f.dataset "value" "" "controlName" (by decide)

theorem clearField_value (f : Field) : (clearField f).value = "" := rfl

theorem clearField_dsvalue (f : Field) :
    datasetGet (clearField f).dataset "value" = some "" := by
  unfold clearField
  dsimp only
  exact datasetGet_datasetSet_self f.dataset "value" ""

theorem clearField_css (f : Field) : (clearField f).cssInvalid = f.cssInvalid := rfl

theorem map_attrCN_set_clear (l : List Field) (i : Nat) (f : Field)
    (h : l.get? i = some f) :
    (l.set i (clearField f)).map attrCN = l.map attrCN := by
  rw [List.map_set, clearField_attrCN]
  exact set_get?_self _ i _ (by rw [List.get?_map, h]; rfl)

theorem resetFieldAt_attrCN_map (form : FormState) (i : Nat) :
    (resetFieldAt form i).inputs.map attrCN = form.inputs.map attrCN := by
  unfold resetFieldAt
  cases hget : form.inputs.get? i with
  | none => rfl
  | some f =>
    dsimp only
    have hset : (form.inputs.set i (clearField f)).map attrCN = form.inputs.map attrCN :=
      map_attrCN_set_clear form.inputs i f hget
    cases truthyControlName f with
    | none => exact hset
    | some cn =>
      rw [hideError_inputs]
      dsimp only
      rw [updateFirst_map_eq (pCN cn) (fun g => { g with cssInvalid := false }) attrCN
        (fun x => rfl)]
      exact hset

theorem countP_attr_eq (l' l : List Field) (hmap : l'.map attrCN = l.map attrCN)
    (cn : String) : l'.countP (pCN cn) = l.countP (pCN cn) := by
  have h1 : ∀ t : List Field,
      t.countP (pCN cn) = (t.map attrCN).countP (fun o => decide (o = some cn)) := by
    intro t
    rw [List.countP_map]
    rfl
  rw [h1, h1, hmap]

theorem attr_ne_empty_transport (l' l : List Field)
    (hmap : l'.map attrCN = l.map attrCN)
    (h : ∀ g ∈ l, attrCN g ≠ some "") : ∀ g ∈ l', attrCN g ≠ some "" := by
  intro g hg
  have hmem : attrCN g ∈ l.map attrCN := by
    rw [← hmap]
    exact List.mem_map_of_mem attrCN hg
  obtain ⟨g0, hg0, he⟩ := List.mem_map.mp hmem
  rw [← he]
  exact h g0 hg0

theorem resetFieldAt_preserves_cleared (form : FormState) (j : Nat) (cn : String)
    (h : FullyCleared form cn) : FullyCleared (resetFieldAt form j) cn := by
  unfold resetFieldAt
  cases hget : form.inputs.get? j with
  | none => exact h
  | some fj =>
    dsimp only
    have hmemj : fj ∈ form.inputs := List.get?_mem hget
    have hset : FullyCleared { form with inputs := form.inputs.set j (clearField fj) } cn := by
      constructor
      · intro g hg hattr
        rcases List.mem_or_eq_of_mem_set hg with hg2 | hg2
        · exact h.1 g hg2 hattr
        · subst hg2
          have hfa : attrCN fj = some cn := by
            rw [← clearField_attrCN fj]
            exact hattr
          have hcl := h.1 fj hmemj hfa
          refine ⟨clearField_value fj, clearField_dsvalue fj, ?_⟩
          rw [clearField_css]
          exact hcl.2.2
      · intro t ht
        exact h.2 t ht
    cases htr : truthyControlName fj with
    | none => exact hset
    | some cn' =>
      constructor
      · intro g hg hattr
        rw [hideError_inputs] at hg
        dsimp only at hg
        rcases mem_updateFirst _ _ _ g hg with hg2 | ⟨y, hy, hgy⟩
        · exact hset.1 g hg2 hattr
        · subst hgy
          have hcl := hset.1 y hy hattr
          exact ⟨hcl.1, hcl.2.1, rfl⟩
      · intro t ht
        unfold surfacedError at ht
        rw [hideError_errorEls] at ht
        dsimp only at ht
        by_cases hcc : cn' = cn
        · subst hcc
          rw [find?_updateFirst_same (fun (e : ErrorEl) => decide (e.key = cn'))
            (fun (e : ErrorEl) => { e with text := "" }) (fun e => rfl)
            form.errorEls] at ht
          cases hfind : form.errorEls.find? (fun (e : ErrorEl) => decide (e.key = cn')) with
          | none => rw [hfind] at ht; cases ht
          | some e2 =>
            rw [hfind] at ht
            exact (Option.some.inj ht).symm
        · rw [find?_updateFirst_disjoint (fun (e : ErrorEl) => decide (e.key = cn))
            (fun (e : ErrorEl) => decide (e.key = cn'))
            (fun (e : ErrorEl) => { e with text := "" }) ?_ form.errorEls] at ht
          · exact hset.2 t ht
          · intro x hx
            have hxk : x.key = cn' := by simpa using hx
            constructor
            · simp [hxk, hcc]
            · simp [hxk, hcc]

theorem resetFieldAt_establishes (form : FormState) (i : Nat) (f : Field) (cn : String)
    (hget : form.inputs.get? i = some f) (hattr : attrCN f = some cn) (hcn : cn ≠ "")
    (hcount : form.inputs.countP (pCN cn) ≤ 1) :
    FullyCleared (resetFieldAt form i) cn := by
  have htr : truthyControlName f = some cn := by
    unfold truthyControlName
    rw [hattr]
    dsimp only
    rw [if_neg hcn]
  unfold resetFieldAt
  rw [hget]
  show FullyCleared
    (match truthyControlName f with
      | some cn2 => hideError cn2 { form with inputs := form.inputs.set i (clearField f) }
      | none => { form with inputs := form.inputs.set i (clearField f) })
    cn
  rw [htr]
  show FullyCleared
    (hideError cn { form with inputs := form.inputs.set i (clearField f) }) cn
  have hLmap : (form.inputs.set i (clearField f)).map attrCN = form.inputs.map attrCN :=
    map_attrCN_set_clear form.inputs i f hget
  have hLcount : (form.inputs.set i (clearField f)).countP (pCN cn) ≤ 1 := by
    rw [countP_attr_eq _ _ hLmap cn]
    exact hcount
  have hLval : ∀ y ∈ form.inputs.set i (clearField f), attrCN y = some cn →
      y.value = "" ∧ datasetGet y.dataset "value" = some "" := by
    intro y hy hya
    obtain ⟨j, hj⟩ := List.mem_iff_get?.mp hy
    by_cases hij : j = i
    · subst hij
      rw [List.get?_set_eq, hget] at hj
      cases hj
      exact ⟨clearField_value f, clearField_dsvalue f⟩
    · rw [List.get?_set_ne _ _ (fun he => hij he.symm)] at hj
      have h2 := countP_two_indices (p := pCN cn) form.inputs i j f y
        (fun he => hij he.symm) hget hj (by simp [pCN, hattr]) (by simp [pCN, hya])
      omega
  constructor
  · intro g hg hattr_g
    rw [hideError_inputs] at hg
    dsimp only at hg
    obtain ⟨y, hy, hpy, hgy⟩ := updateFirst_mem_of_count_le_one (pCN cn)
      (fun x => { x with cssInvalid := false }) (fun x => rfl) _ hLcount g hg
      (by simp [pCN, hattr_g])
    subst hgy
    have hya : attrCN y = some cn := by simpa [pCN] using hpy
    obtain ⟨hv, hd⟩ := hLval y hy hya
    exact ⟨hv, hd, rfl⟩
  · intro t ht
    unfold surfacedError at ht
    rw [hideError_errorEls] at ht
    dsimp only at ht
    rw [find?_updateFirst_same (fun (e : ErrorEl) => decide (e.key = cn))
      (fun (e : ErrorEl) => { e with text := "" }) (fun e => rfl) form.errorEls] at ht
    cases hfind : form.errorEls.find? (fun (e : ErrorEl) => decide (e.key = cn)) with
    | none => rw [hfind] at ht; cases ht
    | some e2 =>
      rw [hfind] at ht
      exact (Option.some.inj ht).symm

theorem resetAux_attrCN_map : ∀ (is : List Nat) (form : FormState),
    (resetAux form is).inputs.map attrCN = form.inputs.map attrCN := by
  intro is
  induction is with
  | nil => intro form; rfl
  | cons j rest ih =>
    intro form
    simp only [resetAux]
    rw [ih (resetFieldAt form j), resetFieldAt_attrCN_map]

theorem resetAux_preserves_cleared : ∀ (is : List Nat) (form : FormState) (cn : String),
    FullyCleared form cn → FullyCleared (resetAux form is) cn := by
  intro is
  induction is with
  | nil => intro form cn h; exact h
  | cons j rest ih =>
    intro form cn h
    simp only [resetAux]
    exact ih (resetFieldAt form j) cn (resetFieldAt_preserves_cleared form j cn h)

theorem resetAux_clears : ∀ (is : List Nat) (form : FormState),
    (∀ g ∈ form.inputs, attrCN g ≠ some "") →
    (∀ cn, form.inputs.countP (pCN cn) ≤ 1) →
    ∀ i ∈ is, ∀ f cn, form.inputs.get? i = some f → attrCN f = some cn →
      FullyCleared (resetAux form is) cn := by
  intro is
  induction is with
  | nil => intro form _ _ i hi; cases hi
  | cons j rest ih =>
    intro form h1 h2 i hi f cn hget hattr
    simp only [resetAux]
    have hmap := resetFieldAt_attrCN_map form j
    rcases List.mem_cons.mp hi with hij | hir
    · subst hij
      have hcn : cn ≠ "" := by
        intro hc
        subst hc
        exact h1 f (List.get?_mem hget) hattr
      have hest := resetFieldAt_establishes form i f cn hget hattr hcn (h2 cn)
      exact resetAux_preserves_cleared rest (resetFieldAt form i) cn hest
    · have h1' := attr_ne_empty_transport (resetFieldAt form j).inputs form.inputs hmap h1
      have h2' : ∀ c, (resetFieldAt form j).inputs.countP (pCN c) ≤ 1 := fun c => by
        rw [countP_attr_eq _ _ hmap c]
        exact h2 c
      have hmapi : Option.map attrCN ((resetFieldAt form j).inputs.get? i) =
          some (some cn) := by
        rw [← List.get?_map, hmap, List.get?_map, hget]
        simp [hattr]
      cases hget' : (resetFieldAt form j).inputs.get? i with
      | none => rw [hget'] at hmapi; cases hmapi
      | some f' =>
        rw [hget'] at hmapi
        have hattr' : attrCN f' = some cn := by simpa using hmapi
        exact ih (resetFieldAt form j) h1' h2' i hir f' cn hget' hattr'

/-- C7: under the data-model invariant that control names are present,
non-empty and unique, reset clears the live value and staged dataset value
of every field of the field group, removes every rf-invalid marker, blanks
every surfaced error text and leaves isValid true. -/
theorem reset_clears_all (n : Ninja)
    (h1 : ∀ g ∈ n.form.inputs, attrCN g ≠ some "")
    (h2 : ∀ cn, n.form.inputs.countP (pCN cn) ≤ 1) :
    (∀ g ∈ fieldGroup (reset n).form,
      g.value = "" ∧ datasetGet g.dataset "value" = some "" ∧ g.cssInvalid = false) ∧
    isValid (reset n).form = true ∧
    (∀ g ∈ fieldGroup n.form, ∀ cn, attrCN g = some cn →
      ∀ t, surfacedError (reset n).form cn = some t → t = "") := by
  have hform : (reset n).form = resetAux n.form (groupIdxs n.form) := rfl
  have key : ∀ cn g0, g0 ∈ n.form.inputs → attrCN g0 = some cn →
      FullyCleared (reset n).form cn := by
    intro cn g0 hg0 hattr0
    obtain ⟨i, hi⟩ := List.mem_iff_get?.mp hg0
    have hlen : i < n.form.inputs.length := (List.get?_eq_some.mp hi).1
    have himem : i ∈ groupIdxs n.form := by
      unfold groupIdxs
      rw [List.mem_filter]
      refine ⟨List.mem_range.mpr hlen, ?_⟩
      show (match n.form.inputs.get? i with
        | some f => (attrCN f).isSome
        | none => false) = true
      rw [hi]
      dsimp only
      rw [hattr0]
      rfl
    rw [hform]
    exact resetAux_clears (groupIdxs n.form) n.form h1 h2 i himem g0 cn hi hattr0
  have hmapfin : (reset n).form.inputs.map attrCN = n.form.inputs.map attrCN := by
    rw [hform]
    exact resetAux_attrCN_map (groupIdxs n.form) n.form
  have hA : ∀ g ∈ fieldGroup (reset n).form,
      g.value = "" ∧ datasetGet g.dataset "value" = some "" ∧ g.cssInvalid = false := by
    intro g hg
    have hmem := (List.mem_filter.mp hg).1
    have hp := (List.mem_filter.mp hg).2
    obtain ⟨cn, hcn⟩ := Option.isSome_iff_exists.mp hp
    have hmm : some cn ∈ n.form.inputs.map attrCN := by
      rw [← hmapfin]
      rw [← hcn]
      exact List.mem_map_of_mem attrCN hmem
    obtain ⟨g0, hg0, hattr0⟩ := List.mem_map.mp hmm
    exact (key cn g0 hg0 hattr0).1 g hmem hcn
  refine ⟨hA, ?_, ?_⟩
  · unfold isValid
    rw [List.all_eq_true]
    intro g hg
    have := (hA g hg).2.2
    simp [this]
  · intro g hg cn hattr t ht
    have hmem := (List.mem_filter.mp hg).1
    exact (key cn g hmem hattr).2 t ht

/-- C7 witness: resetting the dirty single-field form leaves it valid. -/
theorem reset_clears_all_witness : isValid (reset exN7).form = true :=
  (reset_clears_all exN7 (by decide)
    (fun cn => le_trans (List.countP_le_length (pCN cn))
      (by decide : exN7.form.inputs.length ≤ 1))).2.1

/-- C5 witness: the disabled dirty field a is skipped, its marker and
error text cleared. -/
theorem validateField_disabled_or_hidden_clears_witness :
    validateField rtFalse exN5 exFieldC5 = .ok { exN5 with form := hideError "a" exN5.form } ∧
    markedInvalid (hideError "a" exN5.form) "a" = false :=
  ⟨(validateField_disabled_or_hidden_clears rtFalse exN5 exFieldC5 "a"
      (by decide) (by decide) (Or.inl (by decide))).1,
   (validateField_disabled_or_hidden_clears rtFalse exN5 exFieldC5 "a"
      (by decide) (by decide) (Or.inl (by decide))).2.1⟩

end FormNinja
